import Mathlib

/-!
Verification development for the `P2PHost` class of `src/host.ts` (joust/p2p).

The host keeps a registry of connected client handles, authorizes identity
claims against persisted match metadata, relays the Authority Engine's
outbound payloads through a per-recipient view filter, and routes inbound
tagged actions to the engine's entry points.

External collaborators (the `Master` engine, the view filter, match creation,
and the `P2PDB` store, whose source `src/db.ts` is not part of the analysed
sources) are embedded through the interface contracts the spec gives them:
the engine as an append-only event log, the filter as an abstract pure
function, the store as the single match entry this host instance touches.
-/

/-- A connection handle: `ref` models JavaScript reference identity (the
`Map<Client, Client>` registry keys handles by object reference), `playerID`
models `metadata.playerID` (a string, or `none` for JS `null`/`undefined`),
`credentials` models the optional `metadata.credentials` string. -/
structure Client where
  ref : Nat
  playerID : Option String
  credentials : Option String
deriving DecidableEq, Repr

/-- One player slot of the persisted match metadata: its optional
`credentials` string plus `extra`, standing for every other per-player field
preserved by the spread `{ ...metadata.players[+playerID], credentials }`. -/
structure PlayerRecord where
  credentials : Option String
  extra : String
deriving DecidableEq, Repr

/-- Persisted metadata of the one match this host owns: `players` maps the
numeric player index (list position) to its record, `extra` stands for every
other metadata field preserved by the spread `{ ...metadata }`. -/
structure Metadata where
  players : List PlayerRecord
  extra : String
deriving DecidableEq, Repr

/-- JavaScript truthiness of an optional string: `undefined`/`null` and the
empty string are falsy, every other string is truthy. Used for the
`!existingCredentials && credentials` tests in `authenticateClient`. -/
def truthy : Option String → Bool
  | none => false
  | some s => !(s == "")

/-- Whitespace trimmed by the JavaScript string-to-number cast: the ASCII
blanks, vertical tab, form feed, no-break space, the line separators and the
byte-order mark. -/
def jsWhitespace (ch : Char) : Bool :=
  ch == ' ' || ch == '\t' || ch == '\n' || ch == '\r' ||
  ch.toNat == 11 || ch.toNat == 12 || ch.toNat == 160 ||
  ch.toNat == 8232 || ch.toNat == 8233 || ch.toNat == 65279

/-- Value of a list of decimal digits. -/
def digitsToNat (l : List Char) : Nat :=
  l.foldl (fun n ch => 10 * n + (ch.toNat - 48)) 0

/-- Value of one digit character in the given radix, if valid there. -/
def radixDigit (base : Nat) (ch : Char) : Option Nat :=
  let v :=
    if ch.isDigit then ch.toNat - 48
    else if 'a' ≤ ch && ch ≤ 'z' then ch.toNat - 87
    else if 'A' ≤ ch && ch ≤ 'Z' then ch.toNat - 55
    else 99
  if v < base then some v else none

/-- Value of a nonempty all-valid digit string in the given radix. -/
def radixVal (base : Nat) (l : List Char) : Option Nat :=
  if l.isEmpty then none
  else
    l.foldl (fun acc ch =>
      match acc, radixDigit base ch with
      | some n, some d => some (base * n + d)
      | _, _ => none) (some 0)

/-- The exponent part of a decimal numeric literal: an empty part means
exponent 0; otherwise the leading e/E must be followed by an optional sign
and at least one digit. -/
def parseExponent (l : List Char) : Option Int :=
  match l with
  | [] => some 0
  | _ :: rest =>
    match rest with
    | '+' :: ds =>
      if !ds.isEmpty && ds.all Char.isDigit then some ((digitsToNat ds : Int))
      else none
    | '-' :: ds =>
      if !ds.isEmpty && ds.all Char.isDigit then some (-(digitsToNat ds : Int))
      else none
    | ds =>
      if !ds.isEmpty && ds.all Char.isDigit then some ((digitsToNat ds : Int))
      else none

/-- Exact value of an unsigned decimal literal `digits [. digits] [e sign
digits]` when that value is a nonnegative integer. The mantissa and exponent
are evaluated exactly as a scaled integer, so a literal whose mathematical
value is not an integer yields `none` — IEEE-754 rounding of such literals
onto an integer is the one unmodelled corner of the cast. -/
def jsDecimalValue (t : List Char) : Option Nat :=
  let mant := t.takeWhile (fun ch => !(ch == 'e' || ch == 'E'))
  let expChars := t.dropWhile (fun ch => !(ch == 'e' || ch == 'E'))
  let intPart := mant.takeWhile (fun ch => !(ch == '.'))
  let fracPart := (mant.dropWhile (fun ch => !(ch == '.'))).drop 1
  if intPart.isEmpty && fracPart.isEmpty then none
  else if !(intPart.all Char.isDigit && fracPart.all Char.isDigit) then none
  else
    match parseExponent expChars with
    | none => none
    | some e =>
      let M := digitsToNat (intPart ++ fracPart)
      let E : Int := e - fracPart.length
      if 0 ≤ E then some (M * 10 ^ E.toNat)
      else
        let d := 10 ^ (-E).toNat
        if M % d == 0 then some (M / d) else none

/-- Exact nonnegative-integer value of an unsigned JS numeric literal:
a hex, octal or binary radix literal (which admits no sign), or a decimal
literal. -/
def jsUnsignedValue (t : List Char) : Option Nat :=
  match t with
  | '0' :: x :: rest =>
    if x == 'x' || x == 'X' then radixVal 16 rest
    else if x == 'o' || x == 'O' then radixVal 8 rest
    else if x == 'b' || x == 'B' then radixVal 2 rest
    else jsDecimalValue t
  | _ => jsDecimalValue t

/-- The numeric cast `+playerID` followed by its use as a key of the players
table (`+playerID in metadata.players`): `some k` when the cast yields a
number whose property-key string is the decimal form of the nonnegative
integer `k`. Surrounding JS whitespace is trimmed, the empty string casts to
0, signed decimal literals with fractions and exponents and the hex, octal
and binary radix literals are evaluated exactly, and `-0` keys slot 0; a
negative, fractional, infinite or non-numeric value matches no player key.
Values at or beyond 1e21 or 2^53 render or round away from small indices,
so they too index no slot of any realistic players table. -/
def jsStringToNat (s : String) : Option Nat :=
  let t := ((s.data.dropWhile jsWhitespace).reverse.dropWhile jsWhitespace).reverse
  match t with
  | [] => some 0
  | '+' :: rest => jsDecimalValue rest
  | '-' :: rest =>
    match jsDecimalValue rest with
    | some 0 => some 0
    | _ => none
  | _ => jsUnsignedValue t

/-- Result of `authenticateClient`: the returned boolean, the store entry
after the call, and the trace of arguments passed to `db.setMetadata`. -/
structure AuthResult where
  ok : Bool
  db : Metadata
  writes : List Metadata
deriving DecidableEq, Repr

/-- `P2PHost.authenticateClient` (src/host.ts:81-114). Spectator check:
`playerID === null || playerID === undefined || !(+playerID in
metadata.players)` returns `true` with no write. Otherwise: bind supplied
credentials when none are stored and some are supplied; pass when neither
stored nor supplied; else compare with strict string equality. -/
def authenticateClient (db : Metadata) (c : Client) : AuthResult :=
  match c.playerID with
  | none => ⟨true, db, []⟩
  | some pid =>
    match jsStringToNat pid with
    | none => ⟨true, db, []⟩
    | some k =>
      match db.players[k]? with
      | none => ⟨true, db, []⟩
      | some slot =>
        let existingCredentials := slot.credentials
        if !truthy existingCredentials && truthy c.credentials then
          let newMeta : Metadata :=
            { db with players := db.players.set k { slot with credentials := c.credentials } }
          ⟨true, newMeta, [newMeta]⟩
        else if !truthy existingCredentials && !truthy c.credentials then
          ⟨true, db, []⟩
        else
          ⟨c.credentials == existingCredentials, db, []⟩

/-- Modelled from the spec: the Authority Engine (`Master`) is an external
collaborator whose event intake (`onConnectionChange`, `onUpdate`, `onSync`,
`onChatMessage`) is embedded as an append-only event log. -/
inductive MasterEvent where
  | connectionChange (matchID : String) (playerID : Option String)
      (credentials : Option String) (connected : Bool)
  | update (args : List String)
  | sync (args : List String)
  | chatMessage (args : List String)
deriving DecidableEq, Repr

/-- State of one `P2PHost` instance: its match id, the connection registry
(insertion-ordered, no duplicate handles, modelling `Map<Client, Client>`),
the persisted metadata of its match (modelled from the spec: `P2PDB`, whose
source src/db.ts is absent, is a key-value store keyed by MatchID of which
this host only ever touches its own entry), and the engine's event log. -/
structure Host where
  matchID : String
  clients : List Client
  db : Metadata
  events : List MasterEvent
deriving DecidableEq, Repr

/-- `P2PHost.registerClient` (src/host.ts:67-74): authenticate; on failure
return without registering; on success add the handle to the registry (a
`Map.set` with the handle as key: already-present handles stay put) and
notify the engine of the connection. -/
def registerClient (h : Host) (c : Client) : Host :=
  let r := authenticateClient h.db c
  if !r.ok then { h with db := r.db }
  else
    { h with
      db := r.db
      clients := if c ∈ h.clients then h.clients else h.clients ++ [c]
      events := h.events ++
        [.connectionChange h.matchID c.playerID c.credentials true] }

/-- `P2PHost.unregisterClient` (src/host.ts:116-120): delete the handle from
the registry (a no-op when absent) and notify the engine of the disconnect. -/
def unregisterClient (h : Host) (c : Client) : Host :=
  { h with
    clients := h.clients.filter (fun x => x != c)
    events := h.events ++
      [.connectionChange h.matchID c.playerID c.credentials false] }

/-- An inbound client action: its `type` tag and its positional `args`
(argument shapes are opaque to the core; embedded as atoms). -/
structure ClientAction where
  type : String
  args : List String
deriving DecidableEq, Repr

/-- `P2PHost.processAction` (src/host.ts:122-134): switch on the tag,
forwarding the spread args to the matching engine entry point; any other tag
falls through the switch and is a no-op. -/
def processAction (h : Host) (a : ClientAction) : Host :=
  match a.type with
  | "update" => { h with events := h.events ++ [.update a.args] }
  | "chat" => { h with events := h.events ++ [.chatMessage a.args] }
  | "sync" => { h with events := h.events ++ [.sync a.args] }
  | _ => h

/-- Outcome of one relay fan-out: `filterCalls` records the arguments of each
`filterPlayerView` evaluation in source order, `deliveries` the
`client.send(payload)` invocations in registry order. -/
structure FanOut (α : Type) where
  filterCalls : List (Option String × α)
  deliveries : List (Client × α)
deriving DecidableEq, Repr

/-- The `send` sink installed into the engine (src/host.ts:52-57): the view
is computed once from the target `playerID`, then sent to every registered
handle whose claimed `playerID` strictly equals the target. -/
def sendToPlayerSink {α : Type} (F : Option String → α → α)
    (clients : List Client) (playerID : Option String) (data : α) : FanOut α :=
  let playerView := F playerID data
  ⟨[(playerID, data)],
   (clients.filter (fun c => c.playerID == playerID)).map (fun c => (c, playerView))⟩

/-- The `sendAll` sink installed into the engine (src/host.ts:58-63): for
each registered handle, the view is computed from that handle's own claimed
`playerID` and sent to it. -/
def sendAllSink {α : Type} (F : Option String → α → α)
    (clients : List Client) (data : α) : FanOut α :=
  ⟨clients.map (fun c => (c.playerID, data)),
   clients.map (fun c => (c, F c.playerID data))⟩

/-- A game definition as construction sees it: its declared `name`, and the
outcome of match creation for it (modelled from the spec: `createMatch` is an
external collaborator that either yields an initial match or reports a
setup-data error; the error case is carried as `setupDataError`). -/
structure Game where
  name : String
  setupDataError : Option String
deriving DecidableEq, Repr

/-- Modelled from the spec: the initial match metadata created by
`createMatch` has player slots `0 .. numPlayers - 1`, none of them holding
credentials yet. -/
def initialMetadata (numPlayers : Nat) : Metadata :=
  { players := List.replicate numPlayers { credentials := none, extra := "" }
    extra := "" }

/-- The console warning emitted for a missing or default game name
(src/host.ts:28-33). -/
def nameWarning : String :=
  "Using \"default\" as your game name. Please set the name property of " ++
  "your game definition to a unique string to help avoid peer ID conflicts."

/-- The `P2PHost` constructor (src/host.ts:17-47) up to engine wiring: warn
(non-fatally) when the game name is falsy or `"default"`; throw when match
creation reports a setup-data error; otherwise create the match entry and
start with an empty registry. Returns the emitted warnings alongside the
thrown-or-constructed host. -/
def newHost (game : Game) (numPlayers : Nat) (matchID : String) :
    List String × Except String Host :=
  let warnings := if game.name = "" || game.name = "default" then [nameWarning] else []
  match game.setupDataError with
  | some e => (warnings, .error ("setupData Error: " ++ e))
  | none =>
    (warnings,
     .ok { matchID := matchID, clients := [], db := initialMetadata numPlayers, events := [] })

/-- One public host operation (the claim about credential immutability
quantifies over sequences of these). -/
inductive Op where
  | register (c : Client)
  | unregister (c : Client)
  | auth (c : Client)
  | action (a : ClientAction)
deriving DecidableEq, Repr

/-- Apply one operation to the host state; a bare `auth` applies whatever
metadata write `authenticateClient` performed. -/
def applyOp (h : Host) : Op → Host
  | .register c => registerClient h c
  | .unregister c => unregisterClient h c
  | .auth c => { h with db := (authenticateClient h.db c).db }
  | .action a => processAction h a

/-- Run a sequence of operations. -/
def run (h : Host) (ops : List Op) : Host := ops.foldl applyOp h

/-- Stored credentials of player slot `k`. -/
def credAt (db : Metadata) (k : Nat) : Option String :=
  match db.players[k]? with
  | some slot => slot.credentials
  | none => none

/-- A handle claiming slot 0 anonymously (no credentials supplied). -/
def c3AnonClient : Client := ⟨0, some "0", none⟩

/-- A second handle claiming slot 0 with credentials `"x"`. -/
def c3OwnerClient : Client := ⟨1, some "0", some "x"⟩

/-- A freshly constructed two-player host. -/
def c3Host0 : Host := ⟨"m1", [], initialMetadata 2, []⟩

/-- The host after the anonymous handle registered (slot 0 unbound, pass) and
the credentialed handle registered (binding `"x"` to slot 0). -/
def c3Host2 : Host := registerClient (registerClient c3Host0 c3AnonClient) c3OwnerClient

/-- Metadata with slot 0 bound to `"c0"` and slot 1 unbound. -/
def c1BoundDb : Metadata := ⟨[⟨some "c0", ""⟩, ⟨none, ""⟩], ""⟩

/-- The handle that binds `"c0"` to slot 0. -/
def c1Claimant : Client := ⟨0, some "0", some "c0"⟩

/-- A sample operation sequence run after slot 0 is bound. -/
def c1Ops : List Op :=
  [.register ⟨1, some "1", some "z"⟩, .unregister c1Claimant,
   .action ⟨"chat", ["hi"]⟩, .auth ⟨2, some "0", none⟩]

/-- Metadata with slot 0 unbound and slot 1 bound, carrying opaque extras. -/
def authFrameDb : Metadata := ⟨[⟨none, "a"⟩, ⟨some "k", "b"⟩], "x"⟩

/-- A handle binding `"secret"` to slot 0 of `authFrameDb`. -/
def authFrameClient : Client := ⟨3, some "0", some "secret"⟩

/-- `authFrameDb` after the binding write: only slot 0's credentials differ. -/
def authFrameWritten : Metadata := ⟨[⟨some "secret", "a"⟩, ⟨some "k", "b"⟩], "x"⟩

/-! ### Helper lemmas -/

theorem auth_ok_false_frame (db : Metadata) (c : Client)
    (hf : (authenticateClient db c).ok = false) :
    (authenticateClient db c).db = db ∧ (authenticateClient db c).writes = [] := by
  cases hpid : c.playerID with
  | none => simp [authenticateClient, hpid] at hf
  | some pid =>
    cases hn : jsStringToNat pid with
    | none => simp [authenticateClient, hpid, hn] at hf
    | some k =>
      cases hs : db.players[k]? with
      | none => simp [authenticateClient, hpid, hn, hs] at hf
      | some slot =>
        cases hb : (!truthy slot.credentials && truthy c.credentials) with
        | true => simp [authenticateClient, hpid, hn, hs, hb] at hf
        | false =>
          cases hb2 : (!truthy slot.credentials && !truthy c.credentials) with
          | true => simp [authenticateClient, hpid, hn, hs, hb, hb2] at hf
          | false =>
            constructor <;> simp [authenticateClient, hpid, hn, hs, hb, hb2]

theorem registerClient_db (h : Host) (c : Client) :
    (registerClient h c).db = (authenticateClient h.db c).db := by
  simp only [registerClient]
  split <;> rfl

theorem processAction_db (h : Host) (a : ClientAction) :
    (processAction h a).db = h.db := by
  unfold processAction
  split <;> rfl

theorem auth_preserves_cred (db : Metadata) (c : Client) (k : Nat) (p : String)
    (hp : p ≠ "") (hc : credAt db k = some p) :
    credAt (authenticateClient db c).db k = some p := by
  cases hpid : c.playerID with
  | none => simpa [authenticateClient, hpid] using hc
  | some pid =>
    cases hn : jsStringToNat pid with
    | none => simpa [authenticateClient, hpid, hn] using hc
    | some j =>
      cases hs : db.players[j]? with
      | none => simpa [authenticateClient, hpid, hn, hs] using hc
      | some slot =>
        cases hb : (!truthy slot.credentials && truthy c.credentials) with
        | false =>
          cases hb2 : (!truthy slot.credentials && !truthy c.credentials) with
          | true => simpa [authenticateClient, hpid, hn, hs, hb, hb2] using hc
          | false => simpa [authenticateClient, hpid, hn, hs, hb, hb2] using hc
        | true =>
          by_cases hjk : j = k
          · subst hjk
            have hsl : slot.credentials = some p := by simpa [credAt, hs] using hc
            rw [hsl] at hb
            simp [truthy, hp] at hb
          · simp only [authenticateClient, hpid, hn, hs, hb]
            simpa [credAt, List.getElem?_set_ne hjk] using hc

theorem applyOp_preserves_cred (k : Nat) (p : String) (hp : p ≠ "")
    (h : Host) (o : Op) (hc : credAt h.db k = some p) :
    credAt (applyOp h o).db k = some p := by
  cases o with
  | register c =>
    show credAt (registerClient h c).db k = some p
    rw [registerClient_db]
    exact auth_preserves_cred _ _ _ _ hp hc
  | unregister c => exact hc
  | auth c => exact auth_preserves_cred _ _ _ _ hp hc
  | action a =>
    show credAt (processAction h a).db k = some p
    rw [processAction_db]
    exact hc

theorem run_preserves_cred (k : Nat) (p : String) (hp : p ≠ "") :
    ∀ (ops : List Op) (h : Host), credAt h.db k = some p →
      credAt (run h ops).db k = some p := by
  intro ops
  induction ops with
  | nil => intro h hc; exact hc
  | cons o t ih =>
    intro h hc
    exact ih _ (applyOp_preserves_cred k p hp h o hc)

theorem filter_eq_single {α : Type} [DecidableEq α] (l : List α) (c : α)
    (hn : l.Nodup) (hm : c ∈ l) : l.filter (fun x => x == c) = [c] := by
  induction l with
  | nil => cases hm
  | cons a t ih =>
    rw [List.nodup_cons] at hn
    rcases List.mem_cons.mp hm with rfl | hm2
    · have ht : t.filter (fun x => x == c) = [] := by
        rw [List.filter_eq_nil_iff]
        intro x hx hbx
        exact hn.1 (beq_iff_eq.mp hbx ▸ hx)
      simp [List.filter_cons, ht]
    · have hne : (a == c) = false := by
        rw [beq_eq_false_iff_ne]
        rintro rfl
        exact hn.1 hm2
      simp [List.filter_cons, hne, ih hn.2 hm2]

theorem sendToPlayerSink_deliveries {α : Type} (F : Option String → α → α)
    (clients : List Client) (pid : Option String) (data : α) :
    ∀ d ∈ (sendToPlayerSink F clients pid data).deliveries,
      d.1 ∈ clients ∧ d.1.playerID = pid ∧ d.2 = F pid data := by
  intro d hd
  simp only [sendToPlayerSink, List.mem_map, List.mem_filter] at hd
  obtain ⟨c, ⟨hc, hp⟩, rfl⟩ := hd
  exact ⟨hc, beq_iff_eq.mp hp, rfl⟩

theorem sendAllSink_deliveries {α : Type} (F : Option String → α → α)
    (clients : List Client) (data : α) :
    ∀ d ∈ (sendAllSink F clients data).deliveries,
      d.1 ∈ clients ∧ d.2 = F d.1.playerID data := by
  intro d hd
  simp only [sendAllSink, List.mem_map] at hd
  obtain ⟨c, hc, rfl⟩ := hd
  exact ⟨hc, rfl⟩

/-! ### Claim theorems -/

/-- C6: unregister is idempotent on the registry and always succeeds.
Unregistering twice leaves the registry as one call does, and unregistering a
never-registered handle leaves the registry as it was (the embedding is a
total function: no exception is possible). -/
theorem unregister_idempotent (h : Host) (c : Client) :
    (unregisterClient (unregisterClient h c) c).clients =
      (unregisterClient h c).clients ∧
    (c ∉ h.clients → (unregisterClient h c).clients = h.clients) := by
  constructor
  · simp [unregisterClient, List.filter_filter]
  · intro hc
    simp only [unregisterClient]
    refine List.filter_eq_self.mpr (fun a ha => ?_)
    simp only [bne_iff_ne, ne_eq]
    rintro rfl
    exact hc ha

/-- Witness for C6: a doubly-removed registered handle and a never-registered
handle, at concrete states. -/
theorem unregister_idempotent_witness :
    (unregisterClient (unregisterClient ⟨"m1", [⟨0, none, none⟩], initialMetadata 2, []⟩
        ⟨0, none, none⟩) ⟨0, none, none⟩).clients =
      (unregisterClient ⟨"m1", [⟨0, none, none⟩], initialMetadata 2, []⟩
        ⟨0, none, none⟩).clients ∧
    (unregisterClient ⟨"m1", [⟨0, none, none⟩], initialMetadata 2, []⟩
        ⟨1, none, none⟩).clients =
      [⟨0, none, none⟩] :=
  ⟨(unregister_idempotent ⟨"m1", [⟨0, none, none⟩], initialMetadata 2, []⟩
      ⟨0, none, none⟩).1,
   (unregister_idempotent ⟨"m1", [⟨0, none, none⟩], initialMetadata 2, []⟩
      ⟨1, none, none⟩).2 (by decide)⟩

/-- C8: the action router dispatches `update`, `sync` and `chat` messages to
the corresponding engine entry point with the message's args unmodified, and
any unknown kind is a no-op on the whole host state (registry, store and
event log untouched; the embedding is a total function: no exception). -/
theorem action_router_dispatch (h : Host) (a : ClientAction) :
    (a.type = "update" →
      processAction h a = { h with events := h.events ++ [.update a.args] }) ∧
    (a.type = "chat" →
      processAction h a = { h with events := h.events ++ [.chatMessage a.args] }) ∧
    (a.type = "sync" →
      processAction h a = { h with events := h.events ++ [.sync a.args] }) ∧
    (a.type ≠ "update" → a.type ≠ "chat" → a.type ≠ "sync" →
      processAction h a = h) := by
  refine ⟨fun h1 => ?_, fun h1 => ?_, fun h1 => ?_, fun h1 h2 h3 => ?_⟩
  · simp [processAction, h1]
  · simp [processAction, h1]
  · simp [processAction, h1]
  · unfold processAction
    split <;> simp_all

/-- Witness for C8: Scenario C of the spec — a chat message routes with
exactly its argument, a bogus message is a no-op. -/
theorem action_router_dispatch_witness :
    processAction ⟨"m1", [], initialMetadata 2, []⟩ ⟨"chat", ["hello"]⟩ =
      ⟨"m1", [], initialMetadata 2, [.chatMessage ["hello"]]⟩ ∧
    processAction ⟨"m1", [], initialMetadata 2, []⟩ ⟨"bogus", []⟩ =
      ⟨"m1", [], initialMetadata 2, []⟩ :=
  ⟨(action_router_dispatch ⟨"m1", [], initialMetadata 2, []⟩ ⟨"chat", ["hello"]⟩).2.1 rfl,
   (action_router_dispatch ⟨"m1", [], initialMetadata 2, []⟩ ⟨"bogus", []⟩).2.2.2
     (by decide) (by decide) (by decide)⟩

/-- C9: construction fails fast exactly on setup errors — `newHost` yields an
error if and only if match creation reports a setup-data error; an empty or
`"default"` game name yields exactly the non-fatal warning (and no warning
otherwise), and with valid setup data construction still succeeds. -/
theorem construction_fails_fast (g : Game) (n : Nat) (m : String) :
    ((∃ e, (newHost g n m).2 = Except.error e) ↔ g.setupDataError ≠ none) ∧
    ((g.name = "" ∨ g.name = "default") → (newHost g n m).1 = [nameWarning]) ∧
    ((g.name ≠ "" ∧ g.name ≠ "default") → (newHost g n m).1 = []) ∧
    (g.setupDataError = none →
      (newHost g n m).2 = Except.ok ⟨m, [], initialMetadata n, []⟩) := by
  refine ⟨?_, ?_, ?_, ?_⟩
  · rcases hg : g.setupDataError with _ | e <;> simp [newHost, hg]
  · rintro (h | h) <;> rcases hg : g.setupDataError with _ | e <;>
      simp [newHost, hg, h]
  · rintro ⟨h1, h2⟩
    rcases hg : g.setupDataError with _ | e <;> simp [newHost, hg, h1, h2]
  · intro h
    simp [newHost, h]

/-- Witness for C9: a game named `"default"` with valid setup data warns but
constructs; a game with a setup-data error fails. -/
theorem construction_fails_fast_witness :
    (newHost ⟨"default", none⟩ 2 "m1").1 = [nameWarning] ∧
    (newHost ⟨"default", none⟩ 2 "m1").2 =
      Except.ok ⟨"m1", [], initialMetadata 2, []⟩ ∧
    (∃ e, (newHost ⟨"g", some "bad"⟩ 2 "m1").2 = Except.error e) :=
  ⟨(construction_fails_fast ⟨"default", none⟩ 2 "m1").2.1 (Or.inr rfl),
   (construction_fails_fast ⟨"default", none⟩ 2 "m1").2.2.2 rfl,
   (construction_fails_fast ⟨"g", some "bad"⟩ 2 "m1").1.mpr (by decide)⟩

/-- C10: empty-string credentials behave as absent. For an unbound slot (no
stored credentials, or stored empty string), supplying the empty string
passes without any metadata write; a slot whose stored credentials are the
empty string authorizes any claimant, and a non-empty supplied credential
then binds over it. -/
theorem empty_credentials_as_absent :
    (∀ (db : Metadata) (c : Client) (s : String) (k : Nat),
      c.playerID = some s → jsStringToNat s = some k → k < db.players.length →
      (credAt db k = none ∨ credAt db k = some "") → c.credentials = some "" →
      authenticateClient db c = ⟨true, db, []⟩) ∧
    (∀ (db : Metadata) (c : Client) (s : String) (k : Nat),
      c.playerID = some s → jsStringToNat s = some k → k < db.players.length →
      credAt db k = some "" → (authenticateClient db c).ok = true) ∧
    (∀ (db : Metadata) (c : Client) (s : String) (k : Nat) (q : String),
      c.playerID = some s → jsStringToNat s = some k →
      credAt db k = some "" → c.credentials = some q → q ≠ "" →
      credAt (authenticateClient db c).db k = some q ∧
      (authenticateClient db c).writes ≠ []) := by
  refine ⟨?_, ?_, ?_⟩
  · intro db c s k hpid hn hlt hcred hcc
    have hs := List.getElem?_eq_getElem hlt
    have hsl : db.players[k].credentials = none ∨
        db.players[k].credentials = some "" := by
      rcases hcred with h | h
      · exact Or.inl (by simpa [credAt, hs] using h)
      · exact Or.inr (by simpa [credAt, hs] using h)
    have ht : truthy db.players[k].credentials = false := by
      rcases hsl with h | h <;> simp [truthy, h]
    have hts : truthy (some "") = false := by simp [truthy]
    simp [authenticateClient, hpid, hn, hs, ht, hcc, hts]
  · intro db c s k hpid hn hlt hcred
    have hs := List.getElem?_eq_getElem hlt
    have hsl : db.players[k].credentials = some "" := by
      simpa [credAt, hs] using hcred
    have hts : truthy (some "") = false := by simp [truthy]
    cases hc : truthy c.credentials with
    | true => simp [authenticateClient, hpid, hn, hs, hsl, hts, hc]
    | false => simp [authenticateClient, hpid, hn, hs, hsl, hts, hc]
  · intro db c s k q hpid hn hcred hcc hq
    cases hs : db.players[k]? with
    | none => simp [credAt, hs] at hcred
    | some slot =>
      have hlt : k < db.players.length := by
        by_contra hnlt
        rw [List.getElem?_eq_none (Nat.le_of_not_lt hnlt)] at hs
        exact Option.noConfusion hs
      have hsl : slot.credentials = some "" := by simpa [credAt, hs] using hcred
      have hqb : (q == "") = false := beq_eq_false_iff_ne.mpr hq
      have hts : truthy (some "") = false := by simp [truthy]
      have htq : truthy (some q) = true := by simp [truthy, hqb]
      constructor
      · simp [authenticateClient, hpid, hn, hs, hsl, hts, hcc, htq, credAt,
          List.getElem?_set_self hlt]
      · simp [authenticateClient, hpid, hn, hs, hsl, hts, hcc, htq]

/-- Witness for C10: empty supplied credentials pass an unbound slot without
a write; a slot storing `""` authorizes an anonymous claimant and is bound
over by a non-empty credential. -/
theorem empty_credentials_as_absent_witness :
    authenticateClient ⟨[⟨none, ""⟩], "m"⟩ ⟨0, some "0", some ""⟩ =
      ⟨true, ⟨[⟨none, ""⟩], "m"⟩, []⟩ ∧
    (authenticateClient ⟨[⟨some "", "r"⟩], "m"⟩ ⟨1, some "0", none⟩).ok = true ∧
    credAt (authenticateClient ⟨[⟨some "", "r"⟩], "m"⟩ ⟨2, some "0", some "q"⟩).db 0 =
      some "q" :=
  ⟨empty_credentials_as_absent.1 ⟨[⟨none, ""⟩], "m"⟩ ⟨0, some "0", some ""⟩ "0" 0
     rfl (by decide) (by decide) (Or.inl (by decide)) rfl,
   empty_credentials_as_absent.2.1 ⟨[⟨some "", "r"⟩], "m"⟩ ⟨1, some "0", none⟩ "0" 0
     rfl (by decide) (by decide) (by decide),
   (empty_credentials_as_absent.2.2 ⟨[⟨some "", "r"⟩], "m"⟩ ⟨2, some "0", some "q"⟩
     "0" 0 "q" rfl (by decide) (by decide) rfl (by decide)).1⟩

/-- C4: relay delivery and per-identity redaction. Every `send` fan-out
delivers exactly the view filtered for the target playerID, only to
registered handles claiming that playerID, and reaches all of them; every
`sendAll` fan-out invokes each registered handle's send exactly once with
the view filtered for that handle's own claimed playerID; every delivered
payload of either sink equals the filter output keyed by the recipient's
claimed identity. -/
theorem relay_filtered_delivery (α : Type) (F : Option String → α → α)
    (clients : List Client) (pid : Option String) (data : α) :
    (∀ d ∈ (sendToPlayerSink F clients pid data).deliveries,
      d.1 ∈ clients ∧ d.1.playerID = pid ∧ d.2 = F pid data) ∧
    (∀ c ∈ clients, c.playerID = pid →
      (c, F pid data) ∈ (sendToPlayerSink F clients pid data).deliveries) ∧
    (∀ c ∈ clients, c.playerID ≠ pid →
      ∀ x, (c, x) ∉ (sendToPlayerSink F clients pid data).deliveries) ∧
    (clients.Nodup → ∀ c ∈ clients,
      ((sendAllSink F clients data).deliveries.filter (fun d => d.1 == c)) =
        [(c, F c.playerID data)]) ∧
    (∀ d ∈ (sendAllSink F clients data).deliveries,
      d.1 ∈ clients ∧ d.2 = F d.1.playerID data) := by
  refine ⟨sendToPlayerSink_deliveries F clients pid data, ?_, ?_, ?_,
    sendAllSink_deliveries F clients data⟩
  · intro c hc hcp
    simp only [sendToPlayerSink, List.mem_map, List.mem_filter]
    exact ⟨c, ⟨hc, by simp [hcp]⟩, rfl⟩
  · intro c hc hcp x hmem
    exact hcp ((sendToPlayerSink_deliveries F clients pid data) (c, x) hmem).2.1
  · intro hn c hc
    show ((clients.map (fun x => (x, F x.playerID data))).filter
      (fun d => d.1 == c)) = _
    rw [List.filter_map]
    have hcomp : ((fun d : Client × α => d.1 == c) ∘
        (fun x : Client => (x, F x.playerID data))) = fun x => x == c := rfl
    rw [hcomp, filter_eq_single clients c hn hc]
    simp

/-- Witness for C4: with two registered handles claiming slots 0 and 1, the
slot-0 handle receives the slot-0 view from `send`, and receives exactly one
`sendAll` delivery, filtered for its own identity. -/
theorem relay_filtered_delivery_witness :
    ((⟨0, some "0", none⟩ : Client), "p") ∈
      (sendToPlayerSink (fun _ d => d) [⟨0, some "0", none⟩, ⟨1, some "1", none⟩]
        (some "0") "p").deliveries ∧
    ((sendAllSink (fun _ d => d) [⟨0, some "0", none⟩, ⟨1, some "1", none⟩]
        "p").deliveries.filter (fun d => d.1 == ⟨0, some "0", none⟩)) =
      [(⟨0, some "0", none⟩, "p")] :=
  ⟨(relay_filtered_delivery String (fun _ d => d)
      [⟨0, some "0", none⟩, ⟨1, some "1", none⟩] (some "0") "p").2.1
      ⟨0, some "0", none⟩ (by decide) rfl,
   (relay_filtered_delivery String (fun _ d => d)
      [⟨0, some "0", none⟩, ⟨1, some "1", none⟩] (some "0") "p").2.2.2.1
      (by decide) ⟨0, some "0", none⟩ (by decide)⟩

/-- C5 counterexample: the claim says the View Filter is invoked once per
recipient handle in every fan-out; but with two registered handles both
claiming playerID "0", a `send` fan-out delivers to both recipients while
evaluating the filter exactly once (src/host.ts computes `playerView` before
the loop). -/
theorem sendToPlayer_shared_view_counterexample :
    ((sendToPlayerSink (fun _ d => d) [⟨0, some "0", none⟩, ⟨1, some "0", none⟩]
        (some "0") "p").deliveries.length = 2) ∧
    ((sendToPlayerSink (fun _ d => d) [⟨0, some "0", none⟩, ⟨1, some "0", none⟩]
        (some "0") "p").filterCalls.length = 1) := by decide

/-- C5 as amended: in `sendAll` the filter is invoked once per registered
handle, keyed by that handle's own playerID; in `send` it is invoked exactly
once per call, keyed by the target playerID, and its output reaches only
recipients whose claimed playerID equals that target — so a view is never
shared across recipients with different claimed identities. -/
theorem redaction_keyed_per_identity (α : Type) (F : Option String → α → α)
    (clients : List Client) (pid : Option String) (data : α) :
    ((sendAllSink F clients data).filterCalls.length = clients.length ∧
     ∀ c ∈ clients, (c.playerID, data) ∈ (sendAllSink F clients data).filterCalls) ∧
    ((sendToPlayerSink F clients pid data).filterCalls = [(pid, data)] ∧
     ∀ d ∈ (sendToPlayerSink F clients pid data).deliveries,
       d.1.playerID = pid ∧ d.2 = F pid data) := by
  refine ⟨⟨by simp [sendAllSink], ?_⟩, rfl, ?_⟩
  · intro c hc
    simp only [sendAllSink, List.mem_map]
    exact ⟨c, hc, rfl⟩
  · intro d hd
    exact ⟨((sendToPlayerSink_deliveries F clients pid data) d hd).2.1,
      ((sendToPlayerSink_deliveries F clients pid data) d hd).2.2⟩

/-- Witness for the amended C5: a `sendAll` over two distinct identities
records a filter call keyed by the second handle's own playerID. -/
theorem redaction_keyed_per_identity_witness :
    ((some "1" : Option String), "p") ∈
      (sendAllSink (fun _ d => d) [⟨0, some "0", none⟩, ⟨1, some "1", none⟩]
        "p").filterCalls :=
  (redaction_keyed_per_identity String (fun _ d => d)
    [⟨0, some "0", none⟩, ⟨1, some "1", none⟩] (some "0") "p").1.2
    ⟨1, some "1", none⟩ (by decide)

/-- C7: authenticate's side effects are confined. The call is a total
function (no exception; rejection is the boolean), performs at most one
metadata write, writes only on a first successful binding, and a write is a
full copy-on-write replacement differing from the old metadata only in the
target slot's credentials field — every other slot, the slot's other fields,
and every other metadata field are unchanged; on rejection — and on any pass
that is not a first binding — the persisted metadata is entirely unchanged. -/
theorem authenticate_write_frame (db : Metadata) (c : Client) :
    (authenticateClient db c).writes.length ≤ 1 ∧
    ((authenticateClient db c).writes = [] → (authenticateClient db c).db = db) ∧
    ((authenticateClient db c).ok = false →
      (authenticateClient db c).db = db ∧ (authenticateClient db c).writes = []) ∧
    (∀ m ∈ (authenticateClient db c).writes,
      (authenticateClient db c).ok = true ∧
      (authenticateClient db c).db = m ∧
      m.extra = db.extra ∧
      ∃ k slot, (∃ s, c.playerID = some s ∧ jsStringToNat s = some k) ∧
        db.players[k]? = some slot ∧
        truthy slot.credentials = false ∧ truthy c.credentials = true ∧
        m.players[k]? = some { slot with credentials := c.credentials } ∧
        ∀ j, j ≠ k → m.players[j]? = db.players[j]?) := by
  cases hpid : c.playerID with
  | none => simp [authenticateClient, hpid]
  | some pid =>
    cases hn : jsStringToNat pid with
    | none => simp [authenticateClient, hpid, hn]
    | some k =>
      cases hs : db.players[k]? with
      | none => simp [authenticateClient, hpid, hn, hs]
      | some slot =>
        cases hb : (!truthy slot.credentials && truthy c.credentials) with
        | false =>
          cases hb2 : (!truthy slot.credentials && !truthy c.credentials) with
          | true => simp [authenticateClient, hpid, hn, hs, hb, hb2]
          | false => simp [authenticateClient, hpid, hn, hs, hb, hb2]
        | true =>
          have hlt : k < db.players.length := by
            by_contra hnlt
            rw [List.getElem?_eq_none (Nat.le_of_not_lt hnlt)] at hs
            exact Option.noConfusion hs
          have hres : authenticateClient db c =
              ⟨true, ⟨db.players.set k ⟨c.credentials, slot.extra⟩, db.extra⟩,
               [⟨db.players.set k ⟨c.credentials, slot.extra⟩, db.extra⟩]⟩ := by
            simp [authenticateClient, hpid, hn, hs, hb]
          have hb2 := hb
          simp at hb2
          rw [hres]
          refine ⟨by simp, by simp, by simp, ?_⟩
          intro m hm
          simp only [List.mem_singleton] at hm
          subst hm
          refine ⟨rfl, rfl, rfl, k, slot, ⟨pid, rfl, hn⟩, hs, ?_, ?_, ?_, ?_⟩
          · exact hb2.1
          · exact hb2.2
          · exact List.getElem?_set_self hlt
          · intro j hj
            exact List.getElem?_set_ne (Ne.symm hj)

/-- Witness for C7: a concrete first binding — authenticate succeeds and the
resulting store equals the copy-on-write replacement with only slot 0's
credentials changed. -/
theorem authenticate_write_frame_witness :
    (authenticateClient authFrameDb authFrameClient).ok = true ∧
    (authenticateClient authFrameDb authFrameClient).db = authFrameWritten :=
  ⟨((authenticate_write_frame authFrameDb authFrameClient).2.2.2
      authFrameWritten (by decide)).1,
   ((authenticate_write_frame authFrameDb authFrameClient).2.2.2
      authFrameWritten (by decide)).2.1⟩

/-- C1: credential binding is one-shot. An unbound slot claimed with
non-empty credentials authenticates and stores exactly the supplied value;
once a slot stores non-empty credentials, no sequence of
register/authenticate/unregister/action operations ever changes them; and
every later authenticate for that slot supplying non-empty credentials
succeeds exactly when the supplied string equals the stored one. -/
theorem credential_binding_one_shot :
    (∀ (db : Metadata) (c : Client) (s : String) (k : Nat) (p : String),
      c.playerID = some s → jsStringToNat s = some k → k < db.players.length →
      credAt db k = none → c.credentials = some p → p ≠ "" →
      (authenticateClient db c).ok = true ∧
      credAt (authenticateClient db c).db k = some p) ∧
    (∀ (h : Host) (ops : List Op) (k : Nat) (p : String), p ≠ "" →
      credAt h.db k = some p → credAt (run h ops).db k = some p) ∧
    (∀ (db : Metadata) (c : Client) (s : String) (k : Nat) (p q : String),
      c.playerID = some s → jsStringToNat s = some k →
      credAt db k = some p → p ≠ "" → c.credentials = some q → q ≠ "" →
      ((authenticateClient db c).ok = true ↔ q = p)) := by
  refine ⟨?_, ?_, ?_⟩
  · intro db c s k p hpid hn hlt hcred hcc hp
    have hs := List.getElem?_eq_getElem hlt
    have hsl : db.players[k].credentials = none := by
      simpa [credAt, hs] using hcred
    have hpb : (p == "") = false := beq_eq_false_iff_ne.mpr hp
    have htn : truthy (none : Option String) = false := by simp [truthy]
    have htp : truthy (some p) = true := by simp [truthy, hpb]
    constructor
    · simp [authenticateClient, hpid, hn, hs, hsl, htn, hcc, htp]
    · simp [authenticateClient, hpid, hn, hs, hsl, htn, hcc, htp, credAt,
        List.getElem?_set_self hlt]
  · intro h ops k p hp hcred
    exact run_preserves_cred k p hp ops h hcred
  · intro db c s k p q hpid hn hcred hp hcc hq
    cases hs : db.players[k]? with
    | none => simp [credAt, hs] at hcred
    | some slot =>
      have hsl : slot.credentials = some p := by simpa [credAt, hs] using hcred
      have hpb : (p == "") = false := beq_eq_false_iff_ne.mpr hp
      have hqb : (q == "") = false := beq_eq_false_iff_ne.mpr hq
      have htp : truthy (some p) = true := by simp [truthy, hpb]
      have htq : truthy (some q) = true := by simp [truthy, hqb]
      simp [authenticateClient, hpid, hn, hs, hsl, htp, hcc, htq, beq_iff_eq]

/-- Witness for C1: slot 0 of a fresh two-player match binds `"c0"` on first
claim; the binding survives a sample operation sequence; a later claim with
`"wrong"` authenticates exactly when `"wrong"` equals `"c0"`. -/
theorem credential_binding_one_shot_witness :
    (authenticateClient (initialMetadata 2) c1Claimant).ok = true ∧
    credAt (authenticateClient (initialMetadata 2) c1Claimant).db 0 = some "c0" ∧
    credAt (run ⟨"m1", [], c1BoundDb, []⟩ c1Ops).db 0 = some "c0" ∧
    ((authenticateClient c1BoundDb ⟨3, some "0", some "wrong"⟩).ok = true ↔
      ("wrong" : String) = "c0") :=
  ⟨(credential_binding_one_shot.1 (initialMetadata 2) c1Claimant "0" 0 "c0"
      rfl (by decide) (by decide) (by decide) rfl (by decide)).1,
   (credential_binding_one_shot.1 (initialMetadata 2) c1Claimant "0" 0 "c0"
      rfl (by decide) (by decide) (by decide) rfl (by decide)).2,
   credential_binding_one_shot.2.1 ⟨"m1", [], c1BoundDb, []⟩ c1Ops 0 "c0"
      (by decide) (by decide),
   credential_binding_one_shot.2.2 c1BoundDb ⟨3, some "0", some "wrong"⟩ "0" 0
      "c0" "wrong" rfl (by decide) (by decide) (by decide) rfl (by decide)⟩

/-- C3 counterexample: the claim asserts that after a registerClient call
whose authenticate returns false the handle is absent from the registry and
never reached by fan-outs; but a handle registered earlier (anonymous pass)
stays registered after another handle binds the slot, so its later failing
registerClient leaves it present and `sendAll` still reaches it. -/
theorem register_unauthenticated_counterexample :
    (authenticateClient c3Host2.db c3AnonClient).ok = false ∧
    (registerClient c3Host2 c3AnonClient).clients = c3Host2.clients ∧
    c3AnonClient ∈ (registerClient c3Host2 c3AnonClient).clients ∧
    (c3AnonClient, "payload") ∈
      (sendAllSink (fun _ d => d) (registerClient c3Host2 c3AnonClient).clients
        "payload").deliveries := by decide

/-- C3 as amended: a registerClient call whose authenticate returns false
leaves the whole host state unchanged (registry, store and notifications);
hence a handle that was never successfully registered is absent from the
registry and no `sendAll` or `send` fan-out ever invokes its send. A handle
already registered by an earlier successful call remains present. -/
theorem register_unauthenticated_noop (α : Type) (h : Host) (c : Client)
    (hf : (authenticateClient h.db c).ok = false) :
    registerClient h c = h ∧
    (c ∉ h.clients →
      ∀ (F : Option String → α → α) (pid : Option String) (data x : α),
        (c, x) ∉ (sendAllSink F h.clients data).deliveries ∧
        (c, x) ∉ (sendToPlayerSink F h.clients pid data).deliveries) := by
  have hdb := (auth_ok_false_frame h.db c hf).1
  constructor
  · simp [registerClient, hf, hdb]
  · intro hc F pid data x
    constructor
    · intro hmem
      exact hc ((sendAllSink_deliveries F h.clients data) (c, x) hmem).1
    · intro hmem
      exact hc ((sendToPlayerSink_deliveries F h.clients pid data) (c, x) hmem).1

/-- Witness for the amended C3: after the anonymous handle disconnects, its
failing re-registration is a complete no-op and no `sendAll` reaches it. -/
theorem register_unauthenticated_noop_witness :
    registerClient (unregisterClient c3Host2 c3AnonClient) c3AnonClient =
      unregisterClient c3Host2 c3AnonClient ∧
    (c3AnonClient, "p") ∉
      (sendAllSink (fun _ d => d) (unregisterClient c3Host2 c3AnonClient).clients
        "p").deliveries :=
  ⟨(register_unauthenticated_noop String (unregisterClient c3Host2 c3AnonClient)
      c3AnonClient (by decide)).1,
   ((register_unauthenticated_noop String (unregisterClient c3Host2 c3AnonClient)
      c3AnonClient (by decide)).2 (by decide) (fun _ d => d) none "p" "p").1⟩
